import Mathlib

/-!
Shallow embedding of `ncbi_util.py` (timothy-salazar/taxonomy-tools), the
NCBI Entrez E-utilities client.  Network effects are modelled by an explicit
environment (`Env`) mapping issued queries to responses, and every operation
that touches the network also returns the list of HTTP requests it issued.
Python exceptions are modelled by the inductive `PyErr`: each `ValueError`
raised by the source with a distinct message template gets its own
constructor carrying the interpolated data, and attribute errors from
dereferencing `None` carry the attribute name that was accessed.
-/

set_option maxRecDepth 4000

/-- ASCII decimal digit test used to model Python `str.isdigit` on the digit
strings the NCBI API returns (Unicode digit classes are out of scope). -/
def pyCharIsDigit (c : Char) : Bool := '0' ≤ c ∧ c ≤ '9'

/-- Python `str.isdigit()` for ASCII strings: nonempty and all digits. -/
def pyIsDigit (s : String) : Bool := !s.isEmpty && s.data.all pyCharIsDigit

/-- Numeric value of a list of decimal digit characters. -/
def digitsVal (l : List Char) : Nat := l.foldl (fun a c => a * 10 + (c.toNat - 48)) 0

/-- Whitespace characters stripped by Python `str.strip()` (ASCII range). -/
def pyIsSpace (c : Char) : Bool :=
  c = ' ' ∨ c = '\t' ∨ c = '\n' ∨ c = '\r' ∨ c = '\x0b' ∨ c = '\x0c'

/-- Drop trailing elements satisfying `p` (helper for `str.strip`). -/
def dropTrailing (p : Char → Bool) (l : List Char) : List Char :=
  (l.reverse.dropWhile p).reverse

/-- Python `str.strip()`: remove leading and trailing whitespace. -/
def pyStrip (l : List Char) : List Char := dropTrailing pyIsSpace (l.dropWhile pyIsSpace)

/-- Python exceptions raised by the embedded code.  Each `ValueError` message
template in the source is one constructor holding its interpolated data:
`valueErrorTooManyIds n` is the resolver's "Expected API to return one id,
but it returned n ids instead", `valueErrorEmptyIdList t` is "Request
returned empty id_list: t" (t is the raw response text),
`valueErrorNotDigits c` is the all-digits validation failure carrying the
offending candidate, `valueErrorParam p` is `check_ncbi_param`'s rejection of
parameter p, and `valueErrorIntParse s` is `int(s)` failing on a non-numeric
string.  `attributeError a` is Python's `AttributeError` from accessing
attribute `a` on `None`; `typeError` is `int(None)`. -/
inductive PyErr where
  | valueErrorTooManyIds (count : Nat)
  | valueErrorEmptyIdList (respText : String)
  | valueErrorNotDigits (candidate : String)
  | valueErrorParam (paramName : String)
  | valueErrorIntParse (s : String)
  | attributeError (attr : String)
  | typeError
deriving DecidableEq, Repr

/-- Rendered message of each error, mirroring the source's message
templates (runs of whitespace normalised to one space). -/
def pyErrMsg : PyErr → String
  | .valueErrorTooManyIds n =>
      "Expected API to return one id, but it returned " ++ toString n ++ " ids instead"
  | .valueErrorEmptyIdList t => "Request returned empty id_list: " ++ t
  | .valueErrorNotDigits c =>
      "Expected API to return one taxon id consisting of all decimal characters. Returned "
        ++ c ++ " instead."
  | .valueErrorParam p =>
      "\"" ++ p ++ "\" parameter must be a string containing no internal spaces"
  | .valueErrorIntParse s => "invalid literal for int() with base 10: " ++ s
  | .attributeError a => "NoneType object has no attribute " ++ a
  | .typeError => "int() argument must be a string, not NoneType"

/-- Whether error `e`'s rendered message mentions the string `s`. -/
def errMentions (e : PyErr) (s : String) : Prop := s.data <:+: (pyErrMsg e).data

/-- Whether a `PyErr` is a `ValueError` (the kind the spec's NoMatch,
Ambiguous, MalformedResponse and InvalidConfig names refer to). -/
def isValueError : PyErr → Bool
  | .valueErrorTooManyIds _ | .valueErrorEmptyIdList _ | .valueErrorNotDigits _
  | .valueErrorParam _ | .valueErrorIntParse _ => true
  | .attributeError _ | .typeError => false

/-- Python `int(s)` on a string: strip whitespace, optional sign, then
decimal digits (digit-group underscores are out of scope). -/
def pyIntCore (ds : List Char) (neg : Bool) (orig : String) : Except PyErr Int :=
  if ds ≠ [] ∧ ds.all pyCharIsDigit then
    .ok ((if neg then -1 else 1) * (digitsVal ds : Int))
  else .error (.valueErrorIntParse orig)

/-- Python `int` applied to a string. -/
def pyStrInt (s : String) : Except PyErr Int :=
  match pyStrip s.data with
  | '+' :: ds => pyIntCore ds false s
  | '-' :: ds => pyIntCore ds true s
  | ds => pyIntCore ds false s

/-- `check_ncbi_param` (ncbi_util.py:26): raises `ValueError` when the
stripped value contains a space character; the `isinstance(_, str)` branch is
outside this typed model.  On success the value is returned unaltered. -/
def check_ncbi_param (ncbi_param : String) (param_name : String) : Except PyErr String :=
  if ' ' ∈ pyStrip ncbi_param.data then .error (.valueErrorParam param_name)
  else .ok ncbi_param

/-- The `NCBI` client object: fields stored by `NCBI.__init__`. -/
structure NCBI where
  email : String
  tool : String
  return_ranks : Option (List String)
deriving DecidableEq, Repr

/-- `NCBI.__init__` (ncbi_util.py:45): validates `email` and `tool` through
`check_ncbi_param` and stores them; validation failure aborts construction. -/
def NCBI_init (email tool : String) (return_ranks : Option (List String)) :
    Except PyErr NCBI :=
  match check_ncbi_param email "email" with
  | .error e => .error e
  | .ok em =>
    match check_ncbi_param tool "tool" with
    | .error e => .error e
    | .ok tl => .ok ⟨em, tl, return_ranks⟩

/-- Values that can appear in a query-string payload (the `requests` library
accepts strings, ints and lists as parameter values). -/
inductive PyVal where
  | str (s : String)
  | int (n : Int)
  | list (l : List String)
deriving DecidableEq, Repr

/-- An outbound HTTP request: method, URL and query parameters. -/
structure HttpReq where
  method : String
  url : String
  params : List (String × PyVal)
deriving DecidableEq, Repr

/-- `BASE_URL` (ncbi_util.py:15). -/
def BASE_URL : String := "https://eutils.ncbi.nlm.nih.gov/entrez/eutils/"

/-- `esearch_req` (ncbi_util.py:106): GET to the esearch sub-path with the
payload built there (note the source spells the email key `mail`). -/
def esearch_req (n : NCBI) (organism : String) : HttpReq :=
  { method := "GET"
    url := BASE_URL ++ "esearch.fcgi"
    params := [("mail", .str n.email), ("tool", .str n.tool), ("db", .str "taxonomy"),
               ("term", .str organism), ("rettype", .str "uilist"), ("retmode", .str "json")] }

/-- `efetch_req` (ncbi_util.py:132): GET to the efetch sub-path.  The taxid
is annotated `int` in the source but is whatever value the caller passes, so
the parameter is a `PyVal` here. -/
def efetch_req (n : NCBI) (taxid : PyVal) : HttpReq :=
  { method := "GET"
    url := BASE_URL ++ "efetch.fcgi"
    params := [("mail", .str n.email), ("tool", .str n.tool), ("db", .str "taxonomy"),
               ("id", taxid)] }

/-- The JSON body of an esearch response: `esearchresult.idlist` plus the
raw text (`req.text`) quoted in the empty-list error message. -/
structure SearchResp where
  idList : List String
  text : String
deriving DecidableEq, Repr

/-- What `organism_to_id` returns: the raw idlist when `return_raw` is set,
otherwise the single validated integer id. -/
inductive IdResult where
  | raw (l : List String)
  | id (n : Nat)
deriving DecidableEq, Repr

/-- The idlist validation of `organism_to_id` (ncbi_util.py:155) applied to
a search response, in source order: `return_raw` short-circuits before any
check; then more than one id, empty list, and the all-digits test. -/
def organism_to_id_core (resp : SearchResp) (return_raw : Bool) : Except PyErr IdResult :=
  if return_raw then .ok (.raw resp.idList)
  else if resp.idList.length > 1 then .error (.valueErrorTooManyIds resp.idList.length)
  else if resp.idList.isEmpty then .error (.valueErrorEmptyIdList resp.text)
  else if !pyIsDigit (resp.idList.headD "") then
    .error (.valueErrorNotDigits (resp.idList.headD ""))
  else .ok (.id (digitsVal (resp.idList.headD "").data))

/-- An XML element as seen through `defusedxml.ElementTree`: tag, optional
text node, and list of child elements in document order. -/
inductive Elem where
  | mk (tag : String) (text : Option String) (children : List Elem)

/-- Tag of an element. -/
def Elem.tag : Elem → String
  | .mk t _ _ => t

/-- Text of an element (`None` when absent). -/
def Elem.text : Elem → Option String
  | .mk _ tx _ => tx

/-- Children of an element in document order. -/
def Elem.children : Elem → List Elem
  | .mk _ _ cs => cs

/-- `Element.find`: the first direct child with the given tag, or `None`. -/
def Elem.findChild (e : Elem) (tag : String) : Option Elem :=
  e.children.find? (fun c => c.tag == tag)

/-- `Element.findall`: all direct children with the given tag, in document
order. -/
def Elem.findAll (e : Elem) (tag : String) : List Elem :=
  e.children.filter (fun c => c.tag == tag)

/-- An entry of the lineage: the `info` dict of `parse_taxon_element`
(`sci_name` may be `None` when the element has no text). -/
structure TaxonEntry where
  sci_name : Option String
  taxon_id : Int
deriving DecidableEq, Repr

/-- `parse_taxon_element` (ncbi_util.py:238): reads `Rank`, then builds the
info dict from `ScientificName` and `int(TaxId.text)`.  A missing child makes
the Python code call `.text` on `None` (AttributeError); a `TaxId` element
with no text makes it call `int(None)` (TypeError). -/
def parse_taxon_element (taxon : Elem) : Except PyErr (Option String × TaxonEntry) :=
  match taxon.findChild "Rank" with
  | none => .error (.attributeError "text")
  | some rankEl =>
    match taxon.findChild "ScientificName" with
    | none => .error (.attributeError "text")
    | some snEl =>
      match taxon.findChild "TaxId" with
      | none => .error (.attributeError "text")
      | some tidEl =>
        match tidEl.text with
        | none => .error .typeError
        | some t =>
          match pyStrInt t with
          | .error e => .error e
          | .ok v => .ok (rankEl.text, ⟨snEl.text, v⟩)

/-- `lineage[rank].append(info)` on the `defaultdict(list)` of
`etree_to_dict`, modelled as an association list in key insertion order. -/
def lineageInsert (acc : List (Option String × List TaxonEntry)) (k : Option String)
    (v : TaxonEntry) : List (Option String × List TaxonEntry) :=
  match acc with
  | [] => [(k, [v])]
  | (k', vs) :: rest =>
    if k' = k then (k', vs ++ [v]) :: rest else (k', vs) :: lineageInsert rest k v

/-- Lookup in the lineage mapping; absent ranks give the empty sequence
(`defaultdict(list)` semantics). -/
def lineageLookup : List (Option String × List TaxonEntry) → Option String → List TaxonEntry
  | [], _ => []
  | (k, vs) :: rest, r => if k = r then vs else lineageLookup rest r

/-- The loop of `etree_to_dict` over the `LineageEx` taxa: parse each in
order and append it to its rank's sequence; the first parse failure
propagates. -/
def buildLineage : List Elem → List (Option String × List TaxonEntry) →
    Except PyErr (List (Option String × List TaxonEntry))
  | [], acc => .ok acc
  | t :: ts, acc =>
    match parse_taxon_element t with
    | .error e => .error e
    | .ok (r, info) => buildLineage ts (lineageInsert acc r info)

/-- The `taxon_info` dict returned by `etree_to_dict`. -/
structure TaxonInfo where
  rank : Option String
  sci_name : Option String
  taxon_id : Int
  lineage : List (Option String × List TaxonEntry)
deriving DecidableEq, Repr

/-- `etree_to_dict` (ncbi_util.py:200): parse the root `Taxon` element, then
fold its `LineageEx` taxa into the lineage mapping.  When `find` returns
`None` the Python code dereferences it: a missing root `Taxon` raises
AttributeError on `.find`, a missing `LineageEx` raises it on `.findall`. -/
def etree_to_dict (root : Elem) : Except PyErr TaxonInfo :=
  match root.findChild "Taxon" with
  | none => .error (.attributeError "find")
  | some root_taxon =>
    match parse_taxon_element root_taxon with
    | .error e => .error e
    | .ok (rank, info) =>
      match root_taxon.findChild "LineageEx" with
      | none => .error (.attributeError "findall")
      | some lin =>
        match buildLineage (lin.findAll "Taxon") [] with
        | .error e => .error e
        | .ok lineage => .ok ⟨rank, info.sci_name, info.taxon_id, lineage⟩

/-- Parse a list of taxon elements in order, propagating the first failure
(specification-side sequencing used to state theorems about `buildLineage`). -/
def parseAll : List Elem → Except PyErr (List (Option String × TaxonEntry))
  | [] => .ok []
  | t :: ts =>
    match parse_taxon_element t with
    | .error e => .error e
    | .ok p =>
      match parseAll ts with
      | .error e => .error e
      | .ok ps => .ok (p :: ps)

/-- Build the lineage mapping from already-parsed (rank, entry) pairs. -/
def lineageOfPairs (prs : List (Option String × TaxonEntry)) :
    List (Option String × List TaxonEntry) :=
  prs.foldl (fun a p => lineageInsert a p.1 p.2) []

/-- The network environment: responses the NCBI API would give.  `search`
maps a search term to the decoded esearch JSON body; `fetch` maps the value
sent as the `id` parameter to the element tree parsed from the efetch body.
Responses are deterministic: the same query always gets the same answer. -/
structure Env where
  search : String → SearchResp
  fetch : PyVal → Elem

/-- `organism_to_id` (ncbi_util.py:155) with its network effect made
explicit: it issues the esearch request, decodes `esearchresult.idlist`,
and validates it (the `verbose` printing has no effect on the result). -/
def organism_to_id (n : NCBI) (env : Env) (organism : String) (return_raw : Bool) :
    Except PyErr IdResult × List HttpReq :=
  (organism_to_id_core (env.search organism) return_raw, [esearch_req n organism])

/-- The Python value sent as the `id` parameter of the efetch request:
an `int` after validation, the raw list when `return_raw` was set. -/
def IdResult.toVal : IdResult → PyVal
  | .raw l => .list l
  | .id k => .int k

/-- `etree_from_id` (ncbi_util.py:186): issue the efetch request and parse
its body into an element tree. -/
def etree_from_id (n : NCBI) (env : Env) (taxid : PyVal) : Elem × List HttpReq :=
  (env.fetch taxid, [efetch_req n taxid])

/-- `organism_to_dict` (ncbi_util.py:256).  The source calls
`self.organism_to_id(organism, verbose)`, so `verbose` lands positionally in
the `return_raw` parameter; whatever comes back is used as the taxid for
`etree_from_id`.  The pair also returns the requests issued, in order. -/
def organism_to_dict (n : NCBI) (env : Env) (organism : String) (verbose : Bool) :
    Except PyErr TaxonInfo × List HttpReq :=
  match organism_to_id n env organism verbose with
  | (.error e, log) => (.error e, log)
  | (.ok idres, log) =>
    match etree_from_id n env idres.toVal with
    | (tree, log2) => (etree_to_dict tree, log ++ log2)

/-- Two successive calls of `organism_to_dict` on the same client instance
with the same name, with the requests of both calls concatenated. -/
def resolveTwice (n : NCBI) (env : Env) (organism : String) :
    (Except PyErr TaxonInfo × Except PyErr TaxonInfo) × List HttpReq :=
  match organism_to_dict n env organism false, organism_to_dict n env organism false with
  | (r1, l1), (r2, l2) => ((r1, r2), l1 ++ l2)

/-- Transport-level failures caught by `make_req`: the
`requests.RequestException` subclasses the source can see (connection
failure, timeout, and the non-2xx statuses surfaced by
`raise_for_status`). -/
inductive ReqError where
  | connectionError
  | timeout
  | httpStatus (code : Nat)
  | fallbackHTTPError
deriving DecidableEq, Repr

/-- Outcome of one GET attempt: a response body, or a transport failure. -/
inductive AttemptOutcome where
  | ok (resp : String)
  | fail (e : ReqError)
deriving DecidableEq, Repr

/-- Whether an attempt outcome is a failure. -/
def AttemptOutcome.isFail : AttemptOutcome → Bool
  | .ok _ => false
  | .fail _ => true

/-- Observable events of `make_req`: each attempted GET (by attempt index),
the `time.sleep(1)` before a retry, and the polite
`time.sleep(SLEEP_INTERVAL)` after a success. -/
inductive ReqEvent where
  | attempt (i : Nat)
  | sleepRetry
  | sleepPolite
deriving DecidableEq, Repr

/-- The loop body of `make_req` (ncbi_util.py:90): `for i in
range(max_attempts + 1)`, on success sleep the polite interval and return,
on a `RequestException` re-raise if this was attempt `max_attempts`,
otherwise sleep one second and try again.  The fuel counts the loop
iterations that remain; when it runs out the trailing
`raise requests.HTTPError` fires (unreachable from `make_req` itself). -/
def make_req_go (outcomes : Nat → AttemptOutcome) (max_attempts : Nat) :
    Nat → Nat → Except ReqError String × List ReqEvent
  | _, 0 => (.error .fallbackHTTPError, [])
  | i, fuel + 1 =>
    match outcomes i with
    | .ok r => (.ok r, [.attempt i, .sleepPolite])
    | .fail e =>
      if i = max_attempts then (.error e, [.attempt i])
      else
        match make_req_go outcomes max_attempts (i + 1) fuel with
        | (res, evs) => (res, .attempt i :: .sleepRetry :: evs)

/-- `make_req` (ncbi_util.py:67) over an environment giving the outcome of
each attempt. -/
def make_req (outcomes : Nat → AttemptOutcome) (max_attempts : Nat) :
    Except ReqError String × List ReqEvent :=
  make_req_go outcomes max_attempts 0 (max_attempts + 1)

/-- Number of GET attempts in an event trace. -/
def numAttempts (evs : List ReqEvent) : Nat :=
  evs.countP fun e => match e with | .attempt _ => true | _ => false

/-- Number of one-second retry sleeps in an event trace. -/
def numRetrySleeps (evs : List ReqEvent) : Nat :=
  evs.countP fun e => match e with | .sleepRetry => true | _ => false

/-- The scan of `re.sub` with pattern `_sp|_adult|_larva` and empty
replacement (ncbi_util.py:293), written with explicit fuel so that it is
structurally recursive: at each position, remove the first matching
alternative and continue scanning after it, else keep the character.  Fuel
equal to the input length always suffices, since every step consumes at
least one character. -/
def stripAltsGo : Nat → List Char → List Char
  | _, [] => []
  | 0, l => l
  | fuel + 1, c :: rest =>
    if c = '_' ∧ ['s', 'p'].isPrefixOf rest then stripAltsGo fuel (rest.drop 2)
    else if c = '_' ∧ ['a', 'd', 'u', 'l', 't'].isPrefixOf rest then
      stripAltsGo fuel (rest.drop 5)
    else if c = '_' ∧ ['l', 'a', 'r', 'v', 'a'].isPrefixOf rest then
      stripAltsGo fuel (rest.drop 5)
    else c :: stripAltsGo fuel rest

/-- `re.sub` over a whole character list. -/
def stripAlts (l : List Char) : List Char := stripAltsGo l.length l

/-- Python `s.split('_')`: underscore-separated segments, with empty
segments kept (and `[""]` for the empty string). -/
def pySplitUnderscore : List Char → List (List Char)
  | [] => [[]]
  | c :: rest =>
    if c = '_' then [] :: pySplitUnderscore rest
    else
      match pySplitUnderscore rest with
      | [] => [[c]]
      | p :: ps => (c :: p) :: ps

/-- `preprocess_name` (ncbi_util.py:293, present in the source as
commented-out code): remove the `_sp`, `_adult`, `_larva` alternatives,
split on underscore, and join the first and last segment with `+` when more
than one segment remains. -/
def preprocess_name (dir_name : String) : String :=
  let parts := pySplitUnderscore (stripAlts dir_name.data)
  if parts.length > 1 then
    ⟨parts.headD []⟩ ++ "+" ++ ⟨parts.getLastD []⟩
  else
    ⟨parts.headD []⟩

/-- A constant environment: every search gets the same response, every
fetch the same document. -/
def envOf (resp : SearchResp) (tree : Elem) : Env :=
  { search := fun _ => resp, fetch := fun _ => tree }

/-- A validly configured client instance used in concrete scenarios. -/
def n0 : NCBI := ⟨"a@x.com", "taxtool", none⟩

/-- First lineage ancestor of the well-formed fixture (rank "clade"). -/
def ancA : Elem :=
  .mk "Taxon" none
    [.mk "TaxId" (some "1") [], .mk "ScientificName" (some "Anc one") [],
     .mk "Rank" (some "clade") []]

/-- Second lineage ancestor of the well-formed fixture (rank "clade"). -/
def ancB : Elem :=
  .mk "Taxon" none
    [.mk "TaxId" (some "2") [], .mk "ScientificName" (some "Anc two") [],
     .mk "Rank" (some "clade") []]

/-- Root taxon of the well-formed fixture: rank "species", name "Foo bar",
id 42, lineage of two "clade" ancestors. -/
def taxon0 : Elem :=
  .mk "Taxon" none
    [.mk "TaxId" (some "42") [], .mk "ScientificName" (some "Foo bar") [],
     .mk "Rank" (some "species") [], .mk "LineageEx" none [ancA, ancB]]

/-- The well-formed efetch document fixture. -/
def root0 : Elem := .mk "TaxaSet" none [taxon0]

/-- The parsed (rank, entry) pairs of the fixture's lineage. -/
def prs0 : List (Option String × TaxonEntry) :=
  [(some "clade", ⟨some "Anc one", 1⟩), (some "clade", ⟨some "Anc two", 2⟩)]

/-- Attempt outcomes for the retry scenario: the first two GETs fail with a
connection error, the third succeeds. -/
def retryOutcomes : Nat → AttemptOutcome :=
  fun i => if i < 2 then .fail .connectionError else .ok "resp"

/-- No occurrence of any of the three removed alternatives in a character
list: the regex `_sp|_adult|_larva` never matches inside it. -/
def noAltOccurrence (l : List Char) : Prop :=
  ¬("_sp".data <:+: l) ∧ ¬("_adult".data <:+: l) ∧ ¬("_larva".data <:+: l)

/-- Join a list of segments with single underscores (the inverse of
Python's `split('_')`, used to state what the preprocessor does to a name
with any number of segments). -/
def joinUnderscore : List (List Char) → List Char
  | [] => []
  | [a] => a
  | a :: b :: rest => a ++ '_' :: joinUnderscore (b :: rest)

theorem make_req_go_counts (o : Nat → AttemptOutcome) (m : Nat) :
    ∀ fuel i, i ≤ m → i + fuel = m + 1 →
      1 ≤ numAttempts (make_req_go o m i fuel).2 ∧
      numAttempts (make_req_go o m i fuel).2 ≤ fuel ∧
      numRetrySleeps (make_req_go o m i fuel).2 + 1 =
        numAttempts (make_req_go o m i fuel).2 := by
  intro fuel
  induction fuel with
  | zero => intro i hi hsum; omega
  | succ f ih =>
    intro i hi hsum
    cases ho : o i with
    | ok r =>
      simp [make_req_go, ho, numAttempts, numRetrySleeps, List.countP_cons]
    | fail e =>
      by_cases him : i = m
      · subst him
        simp [make_req_go, ho, numAttempts, numRetrySleeps, List.countP_cons]
      · have h1 : i + 1 ≤ m := by omega
        have h2 : (i + 1) + f = m + 1 := by omega
        have := ih (i + 1) h1 h2
        simp only [make_req_go, ho, if_neg him]
        cases hg : make_req_go o m (i + 1) f with
        | mk res evs =>
          rw [hg] at this
          simp [numAttempts, numRetrySleeps, List.countP_cons] at this ⊢
          omega

theorem make_req_go_first_success (o : Nat → AttemptOutcome) (m : Nat) :
    ∀ fuel i k r, i + fuel = m + 1 → i ≤ k → k ≤ m → o k = .ok r →
      (∀ j, i ≤ j → j < k → (o j).isFail = true) →
      (make_req_go o m i fuel).1 = .ok r := by
  intro fuel
  induction fuel with
  | zero => intro i k r hsum hik hkm _ _; omega
  | succ f ih =>
    intro i k r hsum hik hkm hok hfails
    cases ho : o i with
    | ok r' =>
      have hik' : i = k := by
        by_contra hne
        have : (o i).isFail = true := hfails i le_rfl (by omega)
        rw [ho] at this
        simp [AttemptOutcome.isFail] at this
      subst hik'
      rw [ho] at hok
      cases hok
      simp [make_req_go, ho]
    | fail e =>
      have hne : i ≠ k := by
        intro h
        subst h
        rw [ho] at hok
        cases hok
      have him : i ≠ m := by omega
      simp only [make_req_go, ho, if_neg him]
      cases hg : make_req_go o m (i + 1) f with
      | mk res evs =>
        have := ih (i + 1) k r (by omega) (by omega) hkm hok
          (fun j hj1 hj2 => hfails j (by omega) hj2)
        rw [hg] at this
        simpa using this

theorem make_req_go_all_fail (o : Nat → AttemptOutcome) (m : Nat) :
    ∀ fuel i e, i + fuel = m + 1 → i ≤ m →
      (∀ j, i ≤ j → j ≤ m → (o j).isFail = true) → o m = .fail e →
      (make_req_go o m i fuel).1 = .error e := by
  intro fuel
  induction fuel with
  | zero => intro i e hsum hi _ _; omega
  | succ f ih =>
    intro i e hsum hi hfails hlast
    cases ho : o i with
    | ok r =>
      have : (o i).isFail = true := hfails i le_rfl hi
      rw [ho] at this
      simp [AttemptOutcome.isFail] at this
    | fail e' =>
      by_cases him : i = m
      · subst him
        rw [ho] at hlast
        cases hlast
        simp [make_req_go, ho]
      · simp only [make_req_go, ho, if_neg him]
        cases hg : make_req_go o m (i + 1) f with
        | mk res evs =>
          have := ih (i + 1) e (by omega) (by omega)
            (fun j hj1 hj2 => hfails j (by omega) hj2) hlast
          rw [hg] at this
          simpa using this

/-- C3: for every `max_attempts` n, `make_req` attempts the GET at most
n + 1 times, sleeping one second between consecutive attempts (one retry
sleep per attempt after the first); a first successful attempt's response
is returned, and when every one of the n + 1 attempts fails the failure of
the last attempt is raised to the caller. -/
theorem make_req_retry_spec (o : Nat → AttemptOutcome) (n : Nat) :
    numAttempts (make_req o n).2 ≤ n + 1 ∧
    numRetrySleeps (make_req o n).2 + 1 = numAttempts (make_req o n).2 ∧
    (∀ k r, k ≤ n → o k = .ok r → (∀ j, j < k → (o j).isFail = true) →
      (make_req o n).1 = .ok r) ∧
    (∀ e, (∀ j, j ≤ n → (o j).isFail = true) → o n = .fail e →
      (make_req o n).1 = .error e) := by
  have hc := make_req_go_counts o n (n + 1) 0 (Nat.zero_le n) (by omega)
  refine ⟨hc.2.1, hc.2.2, ?_, ?_⟩
  · intro k r hk hok hfails
    exact make_req_go_first_success o n (n + 1) 0 k r (by omega) (Nat.zero_le k) hk hok
      (fun j _ hj => hfails j hj)
  · intro e hfails hlast
    exact make_req_go_all_fail o n (n + 1) 0 e (by omega) (Nat.zero_le n)
      (fun j _ hj => hfails j hj) hlast

/-- Witness for C3: with `max_attempts = 2` and attempts that fail twice
then succeed, the success response is returned without raising. -/
theorem make_req_retry_spec_witness :
    (make_req retryOutcomes 2).1 = .ok "resp" :=
  (make_req_retry_spec retryOutcomes 2).2.2.1 2 "resp" (by decide) (by decide)
    (by decide)

/-- Counterexample for C1: for search result `[]` and query name "Asellus"
the raised error carries the raw response text, and its message does not
mention the query name; for `["5", "7"]` the error carries the candidate
count and again does not mention the query name. -/
theorem organism_to_id_counterexample :
    (organism_to_id n0 (envOf ⟨[], "er"⟩ root0) "Asellus" false).1 =
      .error (.valueErrorEmptyIdList "er") ∧
    ¬ errMentions (.valueErrorEmptyIdList "er") "Asellus" ∧
    (organism_to_id n0 (envOf ⟨["5", "7"], "t"⟩ root0) "Asellus" false).1 =
      .error (.valueErrorTooManyIds 2) ∧
    ¬ errMentions (.valueErrorTooManyIds 2) "Asellus" := by
  refine ⟨rfl, ?_, rfl, ?_⟩ <;> · rw [errMentions]; decide

/-- C1 as amended: zero candidates fail with the empty-idlist `ValueError`
carrying the raw response text; more than one candidate fails with the
too-many-ids `ValueError` carrying the candidate count; a sole candidate
failing the all-digits test fails with the not-digits `ValueError` carrying
that candidate; and a sole all-digit candidate is returned as its integer
value. -/
theorem organism_to_id_validation (n : NCBI) (env : Env) (organism : String) :
    ((env.search organism).idList = [] →
      (organism_to_id n env organism false).1 =
        .error (.valueErrorEmptyIdList (env.search organism).text)) ∧
    ((env.search organism).idList.length > 1 →
      (organism_to_id n env organism false).1 =
        .error (.valueErrorTooManyIds (env.search organism).idList.length)) ∧
    (∀ s, (env.search organism).idList = [s] → pyIsDigit s = false →
      (organism_to_id n env organism false).1 = .error (.valueErrorNotDigits s)) ∧
    (∀ s, (env.search organism).idList = [s] → pyIsDigit s = true →
      (organism_to_id n env organism false).1 = .ok (.id (digitsVal s.data))) := by
  refine ⟨?_, ?_, ?_, ?_⟩
  · intro h
    simp [organism_to_id, organism_to_id_core, h]
  · intro h
    simp [organism_to_id, organism_to_id_core, h]
  · intro s h hd
    simp [organism_to_id, organism_to_id_core, h, hd]
  · intro s h hd
    simp [organism_to_id, organism_to_id_core, h, hd]

/-- Witness for C1 (amended): the search result `["123"]` yields the
integer id 123. -/
theorem organism_to_id_validation_witness :
    (organism_to_id n0 (envOf ⟨["123"], "t"⟩ root0) "Asellus" false).1 =
      .ok (.id 123) :=
  ((organism_to_id_validation n0 (envOf ⟨["123"], "t"⟩ root0) "Asellus").2.2.2
    "123" rfl (by decide)).trans (by rfl)

/-- C10: with `return_raw = True`, `organism_to_id` returns the esearch
idlist exactly as received — whatever its length or content — and never
reaches the no-match, ambiguity or digit-validation errors. -/
theorem organism_to_id_return_raw (resp : SearchResp) (n : NCBI) (env : Env)
    (organism : String) :
    organism_to_id_core resp true = .ok (.raw resp.idList) ∧
    (organism_to_id n env organism true).1 = .ok (.raw (env.search organism).idList) := by
  exact ⟨rfl, rfl⟩

/-- Counterexample for C2: with a deterministic environment resolving "X"
to id 123, two successive `organism_to_dict` calls issue four requests —
two search round trips, not one — and a call never has an empty request
log, so the second call does perform network access. -/
theorem organism_to_dict_twice_counterexample :
    (resolveTwice n0 (envOf ⟨["123"], "ok"⟩ root0) "X").2 =
      [esearch_req n0 "X", efetch_req n0 (.int 123),
       esearch_req n0 "X", efetch_req n0 (.int 123)] ∧
    (organism_to_dict n0 (envOf ⟨["123"], "ok"⟩ root0) "X" false).2 ≠ [] := by
  exact ⟨rfl, by decide⟩

/-- C2 as amended: `organism_to_dict` has no memoization cache.  Both calls
return equal results only because the environment is deterministic; the
combined request log is the concatenation of two identical per-call logs,
and every call's log begins with its own search request. -/
theorem organism_to_dict_no_memoization (n : NCBI) (env : Env) (organism : String) :
    (resolveTwice n env organism).1.1 = (resolveTwice n env organism).1.2 ∧
    (resolveTwice n env organism).2 =
      (organism_to_dict n env organism false).2 ++
        (organism_to_dict n env organism false).2 ∧
    (organism_to_dict n env organism false).2.head? = some (esearch_req n organism) := by
  refine ⟨?_, ?_, ?_⟩
  · rfl
  · simp only [resolveTwice]
  · simp only [organism_to_dict, organism_to_id, etree_from_id]
    cases organism_to_id_core (env.search organism) false with
    | error e => rfl
    | ok idres => rfl

/-- Counterexample for C7: the email "a\tb@x.com" contains internal
whitespace (a tab), yet construction succeeds, because the source only
rejects the space character; "a b@x.com" is rejected as the claim states. -/
theorem NCBI_init_whitespace_counterexample :
    NCBI_init "a\tb@x.com" "taxtool" none = .ok ⟨"a\tb@x.com", "taxtool", none⟩ ∧
    (pyStrip "a\tb@x.com".data).any pyIsSpace = true ∧
    NCBI_init "a b@x.com" "taxtool" none = .error (.valueErrorParam "email") := by
  exact ⟨by rfl, by decide, by rfl⟩

/-- C7 as amended: construction succeeds, storing the given email and tool,
exactly when neither stripped value contains a space character (U+0020);
a space in the email fails construction with the email `ValueError`, a
space in the tool alone fails with the tool `ValueError`.  Whitespace other
than the space character is accepted. -/
theorem NCBI_init_space_validation (email tool : String) (rr : Option (List String)) :
    (' ' ∉ pyStrip email.data → ' ' ∉ pyStrip tool.data →
      NCBI_init email tool rr = .ok ⟨email, tool, rr⟩) ∧
    (' ' ∈ pyStrip email.data →
      NCBI_init email tool rr = .error (.valueErrorParam "email")) ∧
    (' ' ∉ pyStrip email.data → ' ' ∈ pyStrip tool.data →
      NCBI_init email tool rr = .error (.valueErrorParam "tool")) := by
  refine ⟨?_, ?_, ?_⟩
  · intro he ht
    simp [NCBI_init, check_ncbi_param, he, ht]
  · intro he
    simp [NCBI_init, check_ncbi_param, he]
  · intro he ht
    simp [NCBI_init, check_ncbi_param, he, ht]

/-- Witness for C7 (amended): "a@x.com" succeeds and stores its values;
"a b@x.com" fails at construction time. -/
theorem NCBI_init_space_validation_witness :
    NCBI_init "a@x.com" "taxtool" none = .ok ⟨"a@x.com", "taxtool", none⟩ ∧
    NCBI_init "a b@x.com" "taxtool" none = .error (.valueErrorParam "email") :=
  ⟨(NCBI_init_space_validation "a@x.com" "taxtool" none).1 (by decide) (by decide),
   (NCBI_init_space_validation "a b@x.com" "taxtool" none).2.1 (by decide)⟩

/-- C8: the search request is a GET to the fixed base endpoint's esearch
sub-path whose query parameters carry the instance's contact email (under
the key "mail") and tool name, the taxonomy database, the search term,
result type "uilist" and response format "json"; the fetch request is a GET
to the efetch sub-path carrying the contact email, tool name, the taxonomy
database and the taxonomic id; and these are exactly the requests the
resolver and fetcher issue. -/
theorem request_payloads (n : NCBI) (env : Env) (organism : String) (k : Nat)
    (b : Bool) :
    (esearch_req n organism).method = "GET" ∧
    (esearch_req n organism).url = BASE_URL ++ "esearch.fcgi" ∧
    ("mail", .str n.email) ∈ (esearch_req n organism).params ∧
    ("tool", .str n.tool) ∈ (esearch_req n organism).params ∧
    ("db", .str "taxonomy") ∈ (esearch_req n organism).params ∧
    ("term", .str organism) ∈ (esearch_req n organism).params ∧
    ("rettype", .str "uilist") ∈ (esearch_req n organism).params ∧
    ("retmode", .str "json") ∈ (esearch_req n organism).params ∧
    (efetch_req n (.int k)).method = "GET" ∧
    (efetch_req n (.int k)).url = BASE_URL ++ "efetch.fcgi" ∧
    ("mail", .str n.email) ∈ (efetch_req n (.int k)).params ∧
    ("tool", .str n.tool) ∈ (efetch_req n (.int k)).params ∧
    ("db", .str "taxonomy") ∈ (efetch_req n (.int k)).params ∧
    ("id", .int k) ∈ (efetch_req n (.int k)).params ∧
    (organism_to_id n env organism b).2 = [esearch_req n organism] ∧
    (etree_from_id n env (.int k)).2 = [efetch_req n (.int k)] := by
  refine ⟨rfl, rfl, ?_, ?_, ?_, ?_, ?_, ?_, rfl, rfl, ?_, ?_, ?_, ?_, rfl, rfl⟩ <;>
    simp [esearch_req, efetch_req]

/-- C9: `organism_to_dict` passes `verbose` positionally into the
`return_raw` parameter of `organism_to_id`, so with `verbose = True` the
raw idlist — unvalidated — is used as the taxid of the fetch step, and the
overall result differs from the `verbose = False` run on the same
environment. -/
theorem organism_to_dict_verbose_bug (n : NCBI) (env : Env) (organism : String) :
    (organism_to_id n env organism true).1 = .ok (.raw (env.search organism).idList) ∧
    (organism_to_dict n env organism true).2 =
      [esearch_req n organism, efetch_req n (.list (env.search organism).idList)] ∧
    (organism_to_dict n env organism true).1 =
      etree_to_dict (env.fetch (.list (env.search organism).idList)) ∧
    (organism_to_dict n0 (envOf ⟨["12a"], "t"⟩ root0) "Y" true).1 ≠
      (organism_to_dict n0 (envOf ⟨["12a"], "t"⟩ root0) "Y" false).1 := by
  refine ⟨rfl, rfl, rfl, ?_⟩
  intro h
  rw [show (organism_to_dict n0 (envOf ⟨["12a"], "t"⟩ root0) "Y" true).1 =
      etree_to_dict root0 from rfl] at h
  rw [show (organism_to_dict n0 (envOf ⟨["12a"], "t"⟩ root0) "Y" false).1 =
      .error (.valueErrorNotDigits "12a") from rfl] at h
  rw [show etree_to_dict root0 =
      .ok ⟨some "species", some "Foo bar", 42, lineageOfPairs prs0⟩ from rfl] at h
  cases h


theorem stripAltsGo_of_no_occurrence : ∀ (fuel : Nat) (l : List Char),
    ¬("_sp".data <:+: l) → ¬("_adult".data <:+: l) → ¬("_larva".data <:+: l) →
    stripAltsGo fuel l = l := by
  intro fuel
  induction fuel with
  | zero => intro l _ _ _; cases l <;> rfl
  | succ f ih =>
    intro l h1 h2 h3
    cases l with
    | nil => rfl
    | cons c rest =>
      have c1 : ¬(c = '_' ∧ ['s', 'p'].isPrefixOf rest) := by
        rintro ⟨hc, hp⟩
        subst hc
        obtain ⟨t, ht⟩ := List.isPrefixOf_iff_prefix.mp hp
        exact h1 ⟨[], t, by simp [← ht]⟩
      have c2 : ¬(c = '_' ∧ ['a', 'd', 'u', 'l', 't'].isPrefixOf rest) := by
        rintro ⟨hc, hp⟩
        subst hc
        obtain ⟨t, ht⟩ := List.isPrefixOf_iff_prefix.mp hp
        exact h2 ⟨[], t, by simp [← ht]⟩
      have c3 : ¬(c = '_' ∧ ['l', 'a', 'r', 'v', 'a'].isPrefixOf rest) := by
        rintro ⟨hc, hp⟩
        subst hc
        obtain ⟨t, ht⟩ := List.isPrefixOf_iff_prefix.mp hp
        exact h3 ⟨[], t, by simp [← ht]⟩
      rw [stripAltsGo, if_neg c1, if_neg c2, if_neg c3,
        ih rest (fun h => h1 (List.infix_cons h)) (fun h => h2 (List.infix_cons h))
          (fun h => h3 (List.infix_cons h))]

theorem pySplitUnderscore_no_underscore : ∀ l : List Char, '_' ∉ l →
    pySplitUnderscore l = [l] := by
  intro l
  induction l with
  | nil => intro _; rfl
  | cons c rest ih =>
    intro h
    have hc : ¬c = '_' := fun hh => h (hh ▸ List.mem_cons_self c rest)
    have hr : '_' ∉ rest := fun hh => h (List.mem_cons_of_mem c hh)
    rw [pySplitUnderscore, if_neg hc, ih hr]

theorem pySplitUnderscore_append (b : List Char) : ∀ a : List Char, '_' ∉ a →
    pySplitUnderscore (a ++ '_' :: b) = a :: pySplitUnderscore b := by
  intro a
  induction a with
  | nil =>
    intro _
    rw [List.nil_append, pySplitUnderscore, if_pos rfl]
  | cons c a' ih =>
    intro h
    have hc : ¬c = '_' := fun hh => h (hh ▸ List.mem_cons_self c a')
    have ha : '_' ∉ a' := fun hh => h (List.mem_cons_of_mem c hh)
    rw [List.cons_append, pySplitUnderscore, if_neg hc, ih ha]

theorem no_cross_boundary_match (qt : List Char) (hqt : '_' ∉ qt)
    (u' pt v : List Char) (hno : ¬(('_' :: qt) <:+: ('_' :: u'))) :
    ¬ qt <+: (u' ++ ('_' :: pt) ++ v) := by
  intro hpre
  obtain ⟨t, ht⟩ := hpre
  rw [List.append_assoc] at ht
  rcases List.append_eq_append_iff.mp ht with ⟨a, ha, _⟩ | ⟨c', hc, hd⟩
  · exact hno (List.IsPrefix.isInfix ⟨a, by rw [List.cons_append, ← ha]⟩)
  · cases c' with
    | nil =>
      rw [List.append_nil] at hc
      exact hno (List.IsPrefix.isInfix ⟨[], by rw [List.append_nil, hc]⟩)
    | cons x c'' =>
      rw [List.cons_append, List.cons_append] at hd
      injection hd with hx _
      subst hx
      exact hqt (hc ▸ List.mem_append_right u' (List.mem_cons_self '_' c''))

theorem stripAltsGo_removes (p : List Char)
    (hp : p = "_sp".data ∨ p = "_adult".data ∨ p = "_larva".data) :
    ∀ (fuel : Nat) (u v : List Char), u.length < fuel →
      noAltOccurrence u → noAltOccurrence v →
      stripAltsGo fuel (u ++ p ++ v) = u ++ v := by
  intro fuel
  induction fuel with
  | zero => intro u v h _ _; omega
  | succ f ih =>
    intro u v hlen hu hv
    obtain ⟨hu1, hu2, hu3⟩ := hu
    obtain ⟨hv1, hv2, hv3⟩ := hv
    have hid := stripAltsGo_of_no_occurrence f v hv1 hv2 hv3
    cases u with
    | nil =>
      rcases hp with hp | hp | hp <;> subst hp
      · show stripAltsGo (f + 1) ('_' :: 's' :: 'p' :: v) = v
        rw [stripAltsGo, if_pos ⟨rfl, by simp [List.isPrefixOf]⟩]
        exact hid
      · show stripAltsGo (f + 1) ('_' :: 'a' :: 'd' :: 'u' :: 'l' :: 't' :: v) = v
        rw [stripAltsGo, if_neg (by simp [List.isPrefixOf]),
          if_pos ⟨rfl, by simp [List.isPrefixOf]⟩]
        exact hid
      · show stripAltsGo (f + 1) ('_' :: 'l' :: 'a' :: 'r' :: 'v' :: 'a' :: v) = v
        rw [stripAltsGo, if_neg (by simp [List.isPrefixOf]),
          if_neg (by simp [List.isPrefixOf]), if_pos ⟨rfl, by simp [List.isPrefixOf]⟩]
        exact hid
    | cons c u' =>
      obtain ⟨pt, hpt⟩ : ∃ pt, p = '_' :: pt := by
        rcases hp with hp | hp | hp <;> exact ⟨_, by rw [hp]⟩
      have hc1 : ¬(c = '_' ∧ ['s', 'p'].isPrefixOf (u' ++ p ++ v)) := by
        rintro ⟨hcc, hpre⟩
        subst hcc
        rw [hpt] at hpre
        exact no_cross_boundary_match ['s', 'p'] (by decide) u' pt v hu1
          (List.isPrefixOf_iff_prefix.mp hpre)
      have hc2 : ¬(c = '_' ∧ ['a', 'd', 'u', 'l', 't'].isPrefixOf (u' ++ p ++ v)) := by
        rintro ⟨hcc, hpre⟩
        subst hcc
        rw [hpt] at hpre
        exact no_cross_boundary_match ['a', 'd', 'u', 'l', 't'] (by decide) u' pt v hu2
          (List.isPrefixOf_iff_prefix.mp hpre)
      have hc3 : ¬(c = '_' ∧ ['l', 'a', 'r', 'v', 'a'].isPrefixOf (u' ++ p ++ v)) := by
        rintro ⟨hcc, hpre⟩
        subst hcc
        rw [hpt] at hpre
        exact no_cross_boundary_match ['l', 'a', 'r', 'v', 'a'] (by decide) u' pt v hu3
          (List.isPrefixOf_iff_prefix.mp hpre)
      show stripAltsGo (f + 1) (c :: (u' ++ p ++ v)) = c :: (u' ++ v)
      rw [stripAltsGo, if_neg hc1, if_neg hc2, if_neg hc3,
        ih u' v (by simp only [List.length_cons] at hlen; omega)
          ⟨fun h => hu1 (List.infix_cons h), fun h => hu2 (List.infix_cons h),
           fun h => hu3 (List.infix_cons h)⟩ ⟨hv1, hv2, hv3⟩]

theorem pySplitUnderscore_join : ∀ segs : List (List Char), segs ≠ [] →
    (∀ l ∈ segs, '_' ∉ l) → pySplitUnderscore (joinUnderscore segs) = segs := by
  intro segs
  induction segs with
  | nil => intro h _; exact absurd rfl h
  | cons a rest ih =>
    intro _ hall
    cases rest with
    | nil =>
      rw [joinUnderscore]
      exact pySplitUnderscore_no_underscore a (hall a (List.mem_cons_self a []))
    | cons b rest' =>
      rw [joinUnderscore, pySplitUnderscore_append _ _ (hall a (List.mem_cons_self a _)),
        ih (by simp) (fun l hl => hall l (List.mem_cons_of_mem a hl))]

/-- Counterexample for C4: the preprocessor does not strip decimal digits
("Asellus2_aquaticus" keeps its 2), and the suffix patterns are removed
wherever they occur, not only at the end of the string ("Foo_spider" loses
its "_sp"). -/
theorem preprocess_name_counterexample :
    preprocess_name "Asellus2_aquaticus" ≠ "Asellus+aquaticus" ∧
    preprocess_name "Asellus2_aquaticus" = "Asellus2+aquaticus" ∧
    preprocess_name "Foo_spider" ≠ "Foo+spider" ∧
    preprocess_name "Foo_spider" = "Fooider" := by
  exact ⟨by decide, by decide, by decide, by decide⟩

/-- C4 as amended: the preprocessor removes every occurrence of "_sp",
"_adult", "_larva" anywhere in the string (not only at the end) and strips
no digits; it splits the result on underscore and, for any number of
segments, joins the first and the last segment with "+" when more than one
segment remains (otherwise it returns the single segment);
"Asellus2_aquaticus" maps to "Asellus2+aquaticus", "Chelifera" to
"Chelifera", "Foo_sp" to "Foo", and the three-segment
"Ephemerella_aroni_aurivillii" to "Ephemerella+aurivillii". -/
theorem preprocess_name_spec :
    (∀ p : List Char, (p = "_sp".data ∨ p = "_adult".data ∨ p = "_larva".data) →
      ∀ u v : List Char, noAltOccurrence u → noAltOccurrence v →
      stripAlts (u ++ p ++ v) = u ++ v) ∧
    (∀ (s : String) (segs : List (List Char)), noAltOccurrence s.data →
      segs ≠ [] → (∀ l ∈ segs, '_' ∉ l) → s.data = joinUnderscore segs →
      preprocess_name s =
        if segs.length > 1 then ⟨segs.headD []⟩ ++ "+" ++ ⟨segs.getLastD []⟩
        else ⟨segs.headD []⟩) ∧
    preprocess_name "Asellus2_aquaticus" = "Asellus2+aquaticus" ∧
    preprocess_name "Chelifera" = "Chelifera" ∧
    preprocess_name "Foo_sp" = "Foo" ∧
    preprocess_name "Foo_spider" = "Fooider" ∧
    preprocess_name "Ephemerella_aroni_aurivillii" = "Ephemerella+aurivillii" := by
  refine ⟨?_, ?_, by decide, by decide, by decide, by decide, by decide⟩
  · intro p hp u v hu hv
    have hplen : 0 < p.length := by rcases hp with h | h | h <;> subst h <;> decide
    rw [stripAlts]
    exact stripAltsGo_removes p hp _ u v (by simp [List.length_append]; omega) hu hv
  · intro s segs hno hne hall hs
    obtain ⟨h1, h2, h3⟩ := hno
    simp only [preprocess_name, stripAlts]
    rw [hs, stripAltsGo_of_no_occurrence _ _ (hs ▸ h1) (hs ▸ h2) (hs ▸ h3),
      pySplitUnderscore_join segs hne hall]

/-- Witness for C4 (amended): "_sp" is removed from the middle of a name,
and a three-segment name is joined from its first and last segments. -/
theorem preprocess_name_spec_witness :
    stripAlts ("Foo".data ++ "_sp".data ++ "ider".data) = "Foo".data ++ "ider".data ∧
    preprocess_name "Aa_bb_cc" = "Aa+cc" :=
  ⟨preprocess_name_spec.1 "_sp".data (Or.inl rfl) "Foo".data "ider".data
      ⟨by decide, by decide, by decide⟩ ⟨by decide, by decide, by decide⟩,
   (preprocess_name_spec.2.1 "Aa_bb_cc" ["Aa".data, "bb".data, "cc".data]
      ⟨by decide, by decide, by decide⟩ (by decide) (by decide) (by rfl)).trans (by rfl)⟩

theorem lineageLookup_insert (acc : List (Option String × List TaxonEntry))
    (k : Option String) (v : TaxonEntry) (r : Option String) :
    lineageLookup (lineageInsert acc k v) r =
      lineageLookup acc r ++ (if k = r then [v] else []) := by
  induction acc with
  | nil =>
    by_cases hkr : k = r
    · rw [lineageInsert, lineageLookup, if_pos hkr, lineageLookup, if_pos hkr]
      rfl
    · rw [lineageInsert, lineageLookup, if_neg hkr, lineageLookup, if_neg hkr]
      rfl
  | cons hd tl ih =>
    obtain ⟨k', vs⟩ := hd
    by_cases hk : k' = k
    · subst hk
      rw [lineageInsert, if_pos rfl]
      by_cases hkr : k' = r
      · rw [lineageLookup, if_pos hkr, lineageLookup, if_pos hkr, if_pos hkr]
      · rw [lineageLookup, if_neg hkr, lineageLookup, if_neg hkr, if_neg hkr,
          List.append_nil]
    · rw [lineageInsert, if_neg hk]
      by_cases hkr : k' = r
      · have : ¬k = r := fun h => hk (h ▸ hkr)
        rw [lineageLookup, if_pos hkr, lineageLookup, if_pos hkr, if_neg this,
          List.append_nil]
      · rw [lineageLookup, if_neg hkr, lineageLookup, if_neg hkr, ih]

theorem lineageLookup_foldl (prs : List (Option String × TaxonEntry)) :
    ∀ (acc : List (Option String × List TaxonEntry)) (r : Option String),
    lineageLookup (prs.foldl (fun a p => lineageInsert a p.1 p.2) acc) r =
      lineageLookup acc r ++
        prs.filterMap (fun p => if p.1 = r then some p.2 else none) := by
  induction prs with
  | nil => intro acc r; simp
  | cons p ps ih =>
    intro acc r
    rw [List.foldl_cons, List.filterMap_cons, ih, lineageLookup_insert]
    by_cases hpr : p.1 = r
    · rw [if_pos hpr, if_pos hpr, List.append_assoc]
      rfl
    · rw [if_neg hpr, if_neg hpr, List.append_nil]

theorem buildLineage_parseAll (ts : List Elem) :
    ∀ (acc : List (Option String × List TaxonEntry))
      (prs : List (Option String × TaxonEntry)), parseAll ts = .ok prs →
    buildLineage ts acc = .ok (prs.foldl (fun a p => lineageInsert a p.1 p.2) acc) := by
  induction ts with
  | nil =>
    intro acc prs h
    rw [parseAll] at h
    cases h
    rfl
  | cons t ts ih =>
    intro acc prs h
    rw [parseAll] at h
    cases hp : parse_taxon_element t with
    | error e => rw [hp] at h; cases h
    | ok p =>
      rw [hp] at h
      cases hps : parseAll ts with
      | error e => rw [hps] at h; cases h
      | ok ps =>
        rw [hps] at h
        cases h
        obtain ⟨r, info⟩ := p
        rw [buildLineage, hp, List.foldl_cons]
        exact ih (lineageInsert acc r info) ps hps

/-- C5: for a well-formed fetch document — the root element has a `Taxon`
child whose own `Rank`, `ScientificName` and `TaxId` parse, with a
`LineageEx` child all of whose `Taxon` children parse — `etree_to_dict`
returns the record whose rank, scientific name and integer id come from the
root taxon, and whose lineage maps each rank to exactly the entries of the
ancestors bearing that rank, in document order. -/
theorem etree_to_dict_wellformed (root rt lin : Elem) (rk : Option String)
    (rinfo : TaxonEntry) (prs : List (Option String × TaxonEntry))
    (h1 : root.findChild "Taxon" = some rt)
    (h2 : parse_taxon_element rt = .ok (rk, rinfo))
    (h3 : rt.findChild "LineageEx" = some lin)
    (h4 : parseAll (lin.findAll "Taxon") = .ok prs) :
    etree_to_dict root = .ok ⟨rk, rinfo.sci_name, rinfo.taxon_id, lineageOfPairs prs⟩ ∧
    ∀ r, lineageLookup (lineageOfPairs prs) r =
      prs.filterMap (fun p => if p.1 = r then some p.2 else none) := by
  constructor
  · simp only [etree_to_dict, h1, h2, h3, buildLineage_parseAll _ _ _ h4]
    rfl
  · intro r
    rw [lineageOfPairs, lineageLookup_foldl]
    rfl

/-- Witness for C5: the fixture document (root taxon of rank "species",
name "Foo bar", id 42, two lineage ancestors sharing rank "clade") parses
to a record whose lineage at "clade" holds both ancestors in document
order. -/
theorem etree_to_dict_wellformed_witness :
    etree_to_dict root0 =
      .ok ⟨some "species", some "Foo bar", 42, lineageOfPairs prs0⟩ ∧
    lineageLookup (lineageOfPairs prs0) (some "clade") =
      [⟨some "Anc one", 1⟩, ⟨some "Anc two", 2⟩] := by
  have h := etree_to_dict_wellformed root0 taxon0 (Elem.mk "LineageEx" none [ancA, ancB])
    (some "species") ⟨some "Foo bar", 42⟩ prs0 (by rfl) (by rfl) (by rfl) (by rfl)
  exact ⟨h.1, (h.2 (some "clade")).trans (by rfl)⟩

/-- Counterexample for C6: a document with no root `Taxon` element fails
with an `AttributeError` (a `None` dereference), not a `ValueError` of the
MalformedResponse kind; and a taxon missing `Rank` fails with exactly the
same error as one missing `ScientificName`, so the failure does not
identify the missing element. -/
theorem etree_to_dict_missing_counterexample :
    etree_to_dict (Elem.mk "TaxaSet" none []) = .error (.attributeError "find") ∧
    isValueError (.attributeError "find") = false ∧
    parse_taxon_element
      (Elem.mk "Taxon" none
        [Elem.mk "ScientificName" (some "X") [], Elem.mk "TaxId" (some "1") []]) =
      .error (.attributeError "text") ∧
    parse_taxon_element
      (Elem.mk "Taxon" none
        [Elem.mk "Rank" (some "genus") [], Elem.mk "TaxId" (some "1") []]) =
      .error (.attributeError "text") := by
  exact ⟨by rfl, by rfl, by rfl, by rfl⟩

/-- C6 as amended: a malformed fetch document does fail, but with the
`AttributeError` of a `None` dereference — attribute "find" or "findall"
for a missing root `Taxon` or `LineageEx`, attribute "text" for a missing
`Rank`, `ScientificName` or `TaxId` — which does not identify the missing
XML element. -/
theorem etree_to_dict_missing_spec :
    (∀ root : Elem, root.findChild "Taxon" = none →
      etree_to_dict root = .error (.attributeError "find")) ∧
    (∀ t : Elem, t.findChild "Rank" = none →
      parse_taxon_element t = .error (.attributeError "text")) ∧
    (∀ t rEl : Elem, t.findChild "Rank" = some rEl →
      t.findChild "ScientificName" = none →
      parse_taxon_element t = .error (.attributeError "text")) ∧
    (∀ t rEl sEl : Elem, t.findChild "Rank" = some rEl →
      t.findChild "ScientificName" = some sEl → t.findChild "TaxId" = none →
      parse_taxon_element t = .error (.attributeError "text")) ∧
    (∀ (root rt : Elem) (rk : Option String) (info : TaxonEntry),
      root.findChild "Taxon" = some rt → parse_taxon_element rt = .ok (rk, info) →
      rt.findChild "LineageEx" = none →
      etree_to_dict root = .error (.attributeError "findall")) := by
  refine ⟨?_, ?_, ?_, ?_, ?_⟩
  · intro root h
    simp only [etree_to_dict, h]
  · intro t h
    simp only [parse_taxon_element, h]
  · intro t rEl h hs
    simp only [parse_taxon_element, h, hs]
  · intro t rEl sEl h hs ht
    simp only [parse_taxon_element, h, hs, ht]
  · intro root rt rk info h1 h2 h3
    simp only [etree_to_dict, h1, h2, h3]

/-- Witness for C6 (amended): concrete malformed documents produce the
`AttributeError`s the theorem describes. -/
theorem etree_to_dict_missing_spec_witness :
    etree_to_dict (Elem.mk "Root" none [Elem.mk "Other" none []]) =
      .error (.attributeError "find") ∧
    parse_taxon_element (Elem.mk "Taxon" none []) =
      .error (.attributeError "text") :=
  ⟨etree_to_dict_missing_spec.1 (Elem.mk "Root" none [Elem.mk "Other" none []]) (by rfl),
   etree_to_dict_missing_spec.2.1 (Elem.mk "Taxon" none []) (by rfl)⟩
